import Mathlib

/-
Shallow embedding of the stock-dashboard application (src/app.py).

Python dictionary values are embedded as `PyVal` (absent/None, numeric, or
string); numeric values are modelled as exact rationals, and the Python
format specifier `:.2f` is modelled as rounding to two decimal places with
ties to even, which is the decimal behaviour of the float formatter on the
values the specification exercises.
-/

namespace StockApp

/-- Value stored under a key of the provider metadata dictionary: either the
key is absent (or bound to Python `None`), or it is bound to a number, or it
is bound to a string. -/
inductive PyVal where
  | none
  | num (q : ℚ)
  | str (s : String)
deriving DecidableEq, Repr

/-- Python truthiness of a `PyVal`: `None`, `0` and the empty string are
falsy, everything else is truthy. -/
def truthy : PyVal → Bool
  | PyVal.none => false
  | PyVal.num q => decide (q ≠ 0)
  | PyVal.str s => decide (s ≠ "")

/-- Metadata record for a ticker: a finite string-keyed dictionary,
embedded as an association list (first binding of a key wins). -/
abbrev MetadataRecord := List (String × PyVal)

/-- Embedding of Python `info.get(key)`: the stored value, or `None` when the
key is absent. -/
def getVal (info : MetadataRecord) (key : String) : PyVal :=
  match info.find? (fun p => p.1 == key) with
  | some p => p.2
  | Option.none => PyVal.none

/-- Embedding of Python `info.get(key, d)` with an explicit default. -/
def getValD (info : MetadataRecord) (key : String) (d : PyVal) : PyVal :=
  match info.find? (fun p => p.1 == key) with
  | some p => p.2
  | Option.none => d

/-- Decimal digit character for `n % 10`. -/
def digitChar (n : ℕ) : Char := Char.ofNat (48 + n % 10)

/-- Fuel-driven decimal digit extraction, most significant digit first.
The fuel only bounds the recursion depth; any fuel at least the number of
digits gives the decimal representation. -/
def natDigitsAux : ℕ → ℕ → List Char
  | 0, n => [digitChar n]
  | fuel + 1, n =>
    if n < 10 then [digitChar n]
    else natDigitsAux fuel (n / 10) ++ [digitChar (n % 10)]

/-- Decimal digit string of a natural number, most significant digit first
(the integral part produced by Python `%f` formatting). A number `n` has at
most `n + 1` decimal digits, so `n` itself is always enough fuel. -/
def natDigits (n : ℕ) : List Char := natDigitsAux n n

/-- Rounding to the nearest integer with ties to even, the rounding used by
Python float formatting at the displayed precision. -/
def roundHalfEven (q : ℚ) : ℤ :=
  let f : ℤ := ⌊q⌋
  if q - f < 1 / 2 then f
  else if 1 / 2 < q - f then f + 1
  else if f % 2 = 0 then f else f + 1

/-- Embedding of the Python f-string fragment `f"{q:.2f}"`: optional minus
sign, decimal digits of the integral part of the rounded absolute value, a
point, and exactly two fractional digits. -/
def formatTwo (q : ℚ) : String :=
  let n : ℕ := (roundHalfEven (|q| * 100)).toNat
  String.mk ((if q < 0 then [Char.ofNat 45] else []) ++
    natDigits (n / 100) ++ [Char.ofNat 46, digitChar (n / 10), digitChar (n % 10)])

/-- Embedding of `format_number` (src/app.py lines 79 to 96): `None` becomes
the marker `N/A`, a string is returned unchanged, and a number is formatted
as a dollar amount with two decimals and a magnitude suffix B, M or K chosen
by the absolute value. -/
def format_number : PyVal → String
  | PyVal.none => "N/A"
  | PyVal.str s => s
  | PyVal.num q =>
    let a := |q|
    if a ≥ 1000000000 then ("$") ++ formatTwo (q / 1000000000) ++ ("B")
    else if a ≥ 1000000 then ("$") ++ formatTwo (q / 1000000) ++ ("M")
    else if a ≥ 1000 then ("$") ++ formatTwo (q / 1000) ++ ("K")
    else ("$") ++ formatTwo q

/-- Embedding of the Python expression `v * 100` on a metadata value: numeric
multiplication for numbers, string repetition for strings (Python `str * int`).
The application in src/app.py line 108 is guarded by truthiness, so the
`None` case is unreachable there; it is mapped to `None`. -/
def pyMulHundred : PyVal → PyVal
  | PyVal.num q => PyVal.num (q * 100)
  | PyVal.str s => PyVal.str (String.join (List.replicate 100 s))
  | PyVal.none => PyVal.none

/-- Embedding of `get_financial_metrics` (src/app.py lines 99 to 125): builds
the ordered metric dictionary and then the two-column table, replacing every
non-numeric value by the marker `N/A`. -/
def get_financial_metrics (info : MetadataRecord) : List (String × String) :=
  let metrics : List (String × PyVal) := [
    ("Market Cap", getVal info ("marketCap")),
    ("PE Ratio", getVal info ("trailingPE")),
    ("EPS (TTM)", getVal info ("trailingEps")),
    ("Dividend Yield",
      if truthy (getVal info ("dividendYield")) then
        pyMulHundred (getValD info ("dividendYield") (PyVal.num 0))
      else PyVal.none),
    ("52 Week High", getVal info ("fiftyTwoWeekHigh")),
    ("52 Week Low", getVal info ("fiftyTwoWeekLow")),
    ("50 Day Average", getVal info ("fiftyDayAverage")),
    ("200 Day Average", getVal info ("twoHundredDayAverage")),
    ("Forward PE", getVal info ("forwardPE")),
    ("PEG Ratio", getVal info ("pegRatio")),
    ("Beta", getVal info ("beta")),
    ("Volume", getVal info ("volume")),
    ("Avg Volume", getVal info ("averageVolume"))]
  metrics.map (fun p =>
    (p.1, match p.2 with
      | PyVal.num q => format_number (PyVal.num q)
      | _ => "N/A"))

/-- Fixed metric-name column of section 4.1 of the specification, in order. -/
def metricNames : List String :=
  ["Market Cap", "PE Ratio", "EPS (TTM)", "Dividend Yield", "52 Week High",
   "52 Week Low", "50 Day Average", "200 Day Average", "Forward PE",
   "PEG Ratio", "Beta", "Volume", "Avg Volume"]

/-- Source keys of section 4.1 of the specification, in the same order. -/
def sourceKeys : List String :=
  ["marketCap", "trailingPE", "trailingEps", "dividendYield",
   "fiftyTwoWeekHigh", "fiftyTwoWeekLow", "fiftyDayAverage",
   "twoHundredDayAverage", "forwardPE", "pegRatio", "beta", "volume",
   "averageVolume"]

/-- Row of the historical price series: one trading date with OHLCV data. -/
structure PriceRow where
  date : String
  openPrice : ℚ
  high : ℚ
  low : ℚ
  close : ℚ
  volume : ℤ
deriving DecidableEq, Repr

/-- Observable outcome of one render pass of the main section (src/app.py
lines 148 to 215): a visible error box, a visible warning box, or the
rendered page carrying the historical series and the metrics table. -/
inductive Display where
  | errorBox (msg : String)
  | warningBox (msg : String)
  | rendered (hist : List PriceRow) (metrics : List (String × String))
deriving DecidableEq, Repr

/-- Upstream provider client: maps ticker and period either to the pair of
historical series and metadata, or to the text of the raised exception. -/
abbrev Provider := String → String → Except String (List PriceRow × MetadataRecord)

/-- Embedding of `get_stock_data` (src/app.py lines 21 to 31): on success the
triple `(hist, info, None)`, on an exception the triple `(None, None, str(e))`. -/
def get_stock_data (provider : Provider) (tickerSym period : String) :
    Option (List PriceRow) × Option MetadataRecord × Option String :=
  match provider tickerSym period with
  | Except.ok hi => (some hi.1, some hi.2, Option.none)
  | Except.error e => (Option.none, Option.none, some e)

/-- Python truthiness of the `error` variable (a string or `None`). -/
def errTruthy : Option String → Bool
  | Option.none => false
  | some e => decide (e ≠ "")

/-- Python truthiness of `history_data is not None and not history_data.empty`. -/
def histTruthy : Option (List PriceRow) → Bool
  | Option.none => false
  | some h => decide (h ≠ [])

/-- Python truthiness of the `stock_info` dictionary (`None` and the empty
dictionary are falsy). -/
def infoTruthy : Option MetadataRecord → Bool
  | Option.none => false
  | some i => decide (i ≠ [])

/-- Embedding of the top-level if/elif/else of the main section (src/app.py
lines 153 to 215): error box when `error` is truthy, the rendered page when
the series is present and non-empty and the metadata dictionary is truthy,
and the warning box otherwise. -/
def renderMain (tickerSym : String) (hist : Option (List PriceRow))
    (minfo : Option MetadataRecord) (err : Option String) : Display :=
  if errTruthy err then
    Display.errorBox (("Error retrieving data for ") ++ tickerSym ++ (": ") ++ err.getD (""))
  else if histTruthy hist && infoTruthy minfo then
    Display.rendered (hist.getD []) (get_financial_metrics (minfo.getD []))
  else
    Display.warningBox (("No data found for symbol: ") ++ tickerSym ++
      (". Please check if the symbol is correct."))

/-- Embedding of Python `str.upper()` as a character-wise map (the ticker
strings of this application are ASCII, where the two coincide). -/
def pyUpper (s : String) : String := String.mk (s.data.map Char.toUpper)

/-- Embedding of src/app.py line 132: the text-input value with `.upper()`
applied. -/
def ticker_symbol (userText : String) : String := pyUpper userText

/-- Fetch followed by render: the body of the `with st.spinner` block. -/
def appDisplay (provider : Provider) (tickerSym period : String) : Display :=
  let r := get_stock_data provider tickerSym period
  renderMain tickerSym r.1 r.2.1 r.2.2

/-- Embedding of the whole main section including the guard
`if ticker_symbol:` on src/app.py line 148: `none` when the normalized
ticker is empty and nothing is shown at all. -/
def appRun (provider : Provider) (userText period : String) : Option Display :=
  if ticker_symbol userText ≠ ("") then
    some (appDisplay provider (ticker_symbol userText) period)
  else Option.none

/-
Helper lemmas shared by the claim theorems.
-/

theorem digitChar_isDigit (n : ℕ) : (digitChar n).isDigit = true := by
  have h : n % 10 < 10 := Nat.mod_lt n (by omega)
  have key : ∀ k, k < 10 → (Char.ofNat (48 + k)).isDigit = true := by decide
  exact key (n % 10) h

theorem isDigit_ne_dash (c : Char) (h : c.isDigit = true) : c ≠ Char.ofNat 45 := by
  intro he
  rw [he] at h
  exact absurd h (by decide)

theorem natDigitsAux_head (fuel : ℕ) :
    ∀ n : ℕ, ∃ c cs, natDigitsAux fuel n = c :: cs ∧ c.isDigit = true := by
  induction fuel with
  | zero => exact fun n => ⟨digitChar n, [], rfl, digitChar_isDigit n⟩
  | succ f ih =>
    intro n
    by_cases h : n < 10
    · exact ⟨digitChar n, [], by simp [natDigitsAux, h], digitChar_isDigit n⟩
    · obtain ⟨c, cs, hc, hd⟩ := ih (n / 10)
      exact ⟨c, cs ++ [digitChar (n % 10)], by simp [natDigitsAux, h, hc], hd⟩

theorem natDigits_head (n : ℕ) :
    ∃ c cs, natDigits n = c :: cs ∧ c.isDigit = true := natDigitsAux_head n n

theorem formatTwo_eq (q : ℚ) (n : ℕ) (h : roundHalfEven (|q| * 100) = (n : ℤ)) :
    formatTwo q = String.mk ((if q < 0 then [Char.ofNat 45] else []) ++
      natDigits (n / 100) ++ [Char.ofNat 46, digitChar (n / 10), digitChar (n % 10)]) := by
  simp only [formatTwo, h, Int.toNat_natCast]

theorem formatTwo_data (q : ℚ) :
    (formatTwo q).data = (if q < 0 then [Char.ofNat 45] else []) ++
      natDigits ((roundHalfEven (|q| * 100)).toNat / 100) ++
      [Char.ofNat 46, digitChar ((roundHalfEven (|q| * 100)).toNat / 10),
        digitChar ((roundHalfEven (|q| * 100)).toNat % 10)] := rfl

theorem format_num_small (q : ℚ) (h : ¬ |q| ≥ 1000) :
    format_number (PyVal.num q) = ("$") ++ formatTwo q := by
  simp only [format_number]
  rw [if_neg (by intro hc; exact h (by linarith)), if_neg (by intro hc; exact h (by linarith)),
    if_neg h]

theorem format_num_K (q : ℚ) (h1 : ¬ |q| ≥ 1000000) (h2 : |q| ≥ 1000) :
    format_number (PyVal.num q) = ("$") ++ formatTwo (q / 1000) ++ ("K") := by
  simp only [format_number]
  rw [if_neg (by intro hc; exact h1 (by linarith)), if_neg h1, if_pos h2]

theorem format_num_M (q : ℚ) (h1 : ¬ |q| ≥ 1000000000) (h2 : |q| ≥ 1000000) :
    format_number (PyVal.num q) = ("$") ++ formatTwo (q / 1000000) ++ ("M") := by
  simp only [format_number]
  rw [if_neg h1, if_pos h2]

theorem format_num_B (q : ℚ) (h : |q| ≥ 1000000000) :
    format_number (PyVal.num q) = ("$") ++ formatTwo (q / 1000000000) ++ ("B") := by
  simp only [format_number]
  rw [if_pos h]

theorem dollar_data : ("$" : String).data = [Char.ofNat 36] := rfl

theorem formatTwo_data_ne_nil (q : ℚ) : (formatTwo q).data ≠ [] := by
  rw [formatTwo_data]
  rcases natDigits_head ((roundHalfEven (|q| * 100)).toNat / 100) with ⟨c, cs, hc, hd⟩
  by_cases h : q < 0 <;> simp [h, hc]

theorem format_num_data_shape (q r : ℚ) (sufS : String)
    (h : format_number (PyVal.num q) = ("$") ++ formatTwo r ++ sufS) :
    ∃ body d1 d2, (format_number (PyVal.num q)).data =
      Char.ofNat 36 :: (body ++ ([Char.ofNat 46, d1, d2] ++ sufS.data)) ∧
      d1.isDigit = true ∧ d2.isDigit = true := by
  rw [h]
  refine ⟨(if r < 0 then [Char.ofNat 45] else []) ++
    natDigits ((roundHalfEven (|r| * 100)).toNat / 100),
    digitChar ((roundHalfEven (|r| * 100)).toNat / 10),
    digitChar ((roundHalfEven (|r| * 100)).toNat % 10), ?_,
    digitChar_isDigit _, digitChar_isDigit _⟩
  rw [String.data_append, String.data_append, dollar_data, formatTwo_data]
  simp [List.append_assoc]

/-- C2: for every numeric value v with a = |v|, the formatter returns a
currency-prefixed string with exactly two decimal digits and a magnitude
suffix chosen by magnitude (B for a at least 1e9, M for 1e6 to 1e9, K for
1e3 to 1e6, none below 1e3); in particular 1000000 formats as $1.00M,
999999 as $1000.00K and 1000000000 as $1.00B. -/
theorem format_number_magnitude :
    (∀ q : ℚ, |q| ≥ 1000000000 →
      format_number (PyVal.num q) = ("$") ++ formatTwo (q / 1000000000) ++ ("B")) ∧
    (∀ q : ℚ, 1000000 ≤ |q| → |q| < 1000000000 →
      format_number (PyVal.num q) = ("$") ++ formatTwo (q / 1000000) ++ ("M")) ∧
    (∀ q : ℚ, 1000 ≤ |q| → |q| < 1000000 →
      format_number (PyVal.num q) = ("$") ++ formatTwo (q / 1000) ++ ("K")) ∧
    (∀ q : ℚ, |q| < 1000 → format_number (PyVal.num q) = ("$") ++ formatTwo q) ∧
    (∀ q : ℚ, ∃ body : List Char, ∃ d1 d2 : Char, ∃ suf : List Char,
      (format_number (PyVal.num q)).data =
        Char.ofNat 36 :: (body ++ ([Char.ofNat 46, d1, d2] ++ suf)) ∧
      d1.isDigit = true ∧ d2.isDigit = true ∧
      (suf = [] ∨ suf = [Char.ofNat 75] ∨ suf = [Char.ofNat 77] ∨ suf = [Char.ofNat 66]) ∧
      ((suf = []) ↔ |q| < 1000)) ∧
    format_number (PyVal.num 1000000) = ("$1.00M") ∧
    format_number (PyVal.num 999999) = ("$1000.00K") ∧
    format_number (PyVal.num 1000000000) = ("$1.00B") := by
  refine ⟨format_num_B, fun q hl hh => format_num_M q (not_le.mpr hh) hl,
    fun q hl hh => format_num_K q (not_le.mpr hh) hl,
    fun q h => format_num_small q (not_le.mpr h), ?_, ?_, ?_, ?_⟩
  · intro q
    rcases le_or_lt 1000000000 |q| with hB | hB
    · obtain ⟨body, d1, d2, hdata, hd1, hd2⟩ :=
        format_num_data_shape q (q / 1000000000) ("B") (format_num_B q hB)
      rw [show ("B" : String).data = [Char.ofNat 66] from rfl] at hdata
      have habs : (0:ℚ) ≤ |q| := abs_nonneg q
      exact ⟨body, d1, d2, [Char.ofNat 66], hdata, hd1, hd2,
        Or.inr (Or.inr (Or.inr rfl)),
        iff_of_false (by simp) (not_lt.mpr (by linarith))⟩
    · rcases le_or_lt 1000000 |q| with hM | hM
      · obtain ⟨body, d1, d2, hdata, hd1, hd2⟩ :=
          format_num_data_shape q (q / 1000000) ("M") (format_num_M q (not_le.mpr hB) hM)
        rw [show ("M" : String).data = [Char.ofNat 77] from rfl] at hdata
        exact ⟨body, d1, d2, [Char.ofNat 77], hdata, hd1, hd2,
          Or.inr (Or.inr (Or.inl rfl)),
          iff_of_false (by simp) (not_lt.mpr (by linarith))⟩
      · rcases le_or_lt 1000 |q| with hK | hK
        · obtain ⟨body, d1, d2, hdata, hd1, hd2⟩ :=
            format_num_data_shape q (q / 1000) ("K") (format_num_K q (not_le.mpr hM) hK)
          rw [show ("K" : String).data = [Char.ofNat 75] from rfl] at hdata
          exact ⟨body, d1, d2, [Char.ofNat 75], hdata, hd1, hd2,
            Or.inr (Or.inl rfl),
            iff_of_false (by simp) (not_lt.mpr (by linarith))⟩
        · obtain ⟨body, d1, d2, hdata, hd1, hd2⟩ :=
            format_num_data_shape q q ("") (by
              rw [format_num_small q (not_le.mpr hK), String.append_empty])
          rw [show ("" : String).data = [] from rfl] at hdata
          exact ⟨body, d1, d2, [], hdata, hd1, hd2, Or.inl rfl, iff_of_true rfl hK⟩
  · rw [format_num_M 1000000 (by norm_num) (by norm_num)]
    rw [show (1000000 : ℚ) / 1000000 = ((1:ℕ) : ℚ) by norm_num]
    rw [formatTwo_eq _ 100 (by
      rw [show |((1:ℕ) : ℚ)| * 100 = ((100:ℕ) : ℚ) by norm_num]
      unfold roundHalfEven; norm_num)]
    rw [if_neg (by norm_num : ¬ (((1:ℕ):ℚ) < 0))]
    decide
  · rw [format_num_K 999999 (by norm_num) (by norm_num)]
    rw [formatTwo_eq _ 100000 (by
      rw [abs_of_pos (show (0:ℚ) < 999999/1000 by norm_num),
        show (999999:ℚ)/1000 * 100 = (999999:ℚ)/10 by ring]
      unfold roundHalfEven; norm_num)]
    rw [if_neg (by norm_num : ¬ ((999999:ℚ)/1000 < 0))]
    decide
  · rw [format_num_B 1000000000 (by norm_num)]
    rw [show (1000000000 : ℚ) / 1000000000 = ((1:ℕ) : ℚ) by norm_num]
    rw [formatTwo_eq _ 100 (by
      rw [show |((1:ℕ) : ℚ)| * 100 = ((100:ℕ) : ℚ) by norm_num]
      unfold roundHalfEven; norm_num)]
    rw [if_neg (by norm_num : ¬ (((1:ℕ):ℚ) < 0))]
    decide

/-- Witness for C2 at the concrete input 2000000, which lies in the M band. -/
theorem format_number_magnitude_witness :
    (1000000 ≤ |(2000000 : ℚ)|) ∧ (|(2000000 : ℚ)| < 1000000000) ∧
    format_number (PyVal.num 2000000) = ("$") ++ formatTwo ((2000000 : ℚ) / 1000000) ++ ("M") :=
  ⟨by norm_num, by norm_num, format_number_magnitude.2.1 2000000 (by norm_num) (by norm_num)⟩

theorem formatTwo_head_dash (r : ℚ) :
    ((formatTwo r).data.take 1 = [Char.ofNat 45]) ↔ r < 0 := by
  rw [formatTwo_data]
  by_cases h : r < 0
  · simp [h]
  · obtain ⟨c, cs, hc, hd⟩ := natDigits_head ((roundHalfEven (|r| * 100)).toNat / 100)
    rw [if_neg h, hc]
    simp [List.take]
    exact iff_of_false (isDigit_ne_dash c hd) h

theorem format_num_take2 (q r : ℚ) (sufS : String)
    (h : format_number (PyVal.num q) = ("$") ++ formatTwo r ++ sufS) :
    ((format_number (PyVal.num q)).data.take 2 = [Char.ofNat 36, Char.ofNat 45]) ↔ r < 0 := by
  rw [h, String.data_append, String.data_append, dollar_data]
  have hne := formatTwo_data_ne_nil r
  rcases hl : (formatTwo r).data with _ | ⟨c, cs⟩
  · exact absurd hl hne
  · have hh := formatTwo_head_dash r
    rw [hl] at hh
    simp [List.take] at hh ⊢
    exact hh

theorem div_pos_sign (q c : ℚ) (hc : 0 < c) : (q / c < 0) ↔ q < 0 := by
  rw [div_neg_iff]
  constructor
  · rintro (⟨h1, h2⟩ | ⟨h1, h2⟩)
    · linarith
    · exact h1
  · intro hq
    exact Or.inr ⟨hq, hc⟩

/-- C3 amended: for all numeric v, the formatted string carries the minus
sign of a negative input immediately after the leading dollar prefix: the
first two characters are dollar and minus iff v < 0. (As literally stated
the claim fails: the string starts with the dollar character, never with
the minus character; see the counterexample.) -/
theorem format_number_sign (q : ℚ) :
    ((format_number (PyVal.num q)).data.take 2 = [Char.ofNat 36, Char.ofNat 45]) ↔ q < 0 := by
  rcases le_or_lt 1000000000 |q| with hB | hB
  · rw [format_num_take2 q (q / 1000000000) ("B") (format_num_B q hB)]
    exact div_pos_sign q 1000000000 (by norm_num)
  · rcases le_or_lt 1000000 |q| with hM | hM
    · rw [format_num_take2 q (q / 1000000) ("M") (format_num_M q (not_le.mpr hB) hM)]
      exact div_pos_sign q 1000000 (by norm_num)
    · rcases le_or_lt 1000 |q| with hK | hK
      · rw [format_num_take2 q (q / 1000) ("K") (format_num_K q (not_le.mpr hM) hK)]
        exact div_pos_sign q 1000 (by norm_num)
      · exact format_num_take2 q q ("") (by
          rw [format_num_small q (not_le.mpr hK), String.append_empty])

/-- C3 counterexample to the literal claim: -5 is negative, yet its
formatted string is $-5.00, whose first character is not the minus sign. -/
theorem format_number_sign_counterexample :
    ((-5 : ℚ) < 0) ∧
    format_number (PyVal.num (-5)) = ("$-5.00") ∧
    (format_number (PyVal.num (-5))).data.take 1 ≠ [Char.ofNat 45] := by
  have h : format_number (PyVal.num (-5)) = ("$-5.00") := by
    rw [format_num_small (-5) (by norm_num)]
    rw [formatTwo_eq _ 500 (by
      rw [show |(-5 : ℚ)| * 100 = ((500:ℕ) : ℚ) by norm_num]
      unfold roundHalfEven; norm_num)]
    rw [if_pos (by norm_num : ((-5:ℚ) < 0))]
    decide
  exact ⟨by norm_num, h, by rw [h]; decide⟩


theorem getValD_of_getVal (info : MetadataRecord) (k : String) (v d : PyVal)
    (h : getVal info k = v) (hv : v ≠ PyVal.none) : getValD info k d = v := by
  simp only [getVal, getValD] at h ⊢
  rcases hf : info.find? (fun p => p.1 == k) with _ | p
  · rw [hf] at h
    exact absurd h.symm hv
  · rw [hf] at h ⊢
    exact h

/-- C1: for every MetadataRecord the metrics deriver produces a table with
exactly 13 rows whose metric names and order are the fixed list of section
4.1, independent of which keys the record contains, and every row whose
source key is absent carries the marker N/A, never a formatted zero and
never an omitted row. -/
theorem metrics_table_shape (info : MetadataRecord) :
    (get_financial_metrics info).map Prod.fst = metricNames ∧
    (get_financial_metrics info).length = 13 ∧
    (∀ p ∈ (get_financial_metrics info).zip sourceKeys,
      getVal info p.2 = PyVal.none → p.1.2 = ("N/A")) := by
  refine ⟨rfl, rfl, ?_⟩
  intro p hp habs
  simp only [get_financial_metrics, sourceKeys, List.map, List.zip, List.zipWith] at hp
  simp only [List.mem_cons, List.not_mem_nil, or_false] at hp
  rcases hp with rfl | rfl | rfl | rfl | rfl | rfl | rfl | rfl | rfl | rfl | rfl | rfl | rfl
  all_goals simp_all [truthy]

/-- Witness for C1 at the empty record and the Market Cap row. -/
theorem metrics_table_shape_witness :
    (((("Market Cap"), ("N/A")), ("marketCap")) ∈
      (get_financial_metrics ([] : MetadataRecord)).zip sourceKeys) ∧
    getVal ([] : MetadataRecord) ("marketCap") = PyVal.none ∧
    (((("Market Cap"), ("N/A")), ("marketCap")) : (String × String) × String).1.2 = ("N/A") :=
  ⟨by decide, rfl,
    (metrics_table_shape []).2.2 ((("Market Cap"), ("N/A")), ("marketCap")) (by decide) rfl⟩

/-- C5: for every MetadataRecord and every one of the 13 metrics, a source
key present but bound to a string (numeric values are the only other case)
yields the marker N/A in that row, regardless of the string content. -/
theorem metrics_nonnumeric (info : MetadataRecord) :
    ∀ p ∈ (get_financial_metrics info).zip sourceKeys,
      ∀ s : String, getVal info p.2 = PyVal.str s → p.1.2 = ("N/A") := by
  intro p hp s hs
  simp only [get_financial_metrics, sourceKeys, List.map, List.zip, List.zipWith] at hp
  simp only [List.mem_cons, List.not_mem_nil, or_false] at hp
  rcases hp with rfl | rfl | rfl | rfl | rfl | rfl | rfl | rfl | rfl | rfl | rfl | rfl | rfl
  case inr.inr.inr.inl =>
    by_cases hse : s = ""
    · subst hse
      simp_all [truthy]
    · have hD := getValD_of_getVal info ("dividendYield") (PyVal.str s) (PyVal.num 0) hs (by simp)
      simp_all [truthy, pyMulHundred, hse]
  all_goals simp_all [truthy]

/-- Witness for C5 with a non-empty string stored under marketCap. -/
theorem metrics_nonnumeric_witness :
    (((("Market Cap"), ("N/A")), ("marketCap")) ∈
      (get_financial_metrics [(("marketCap"), PyVal.str ("hello"))]).zip sourceKeys) ∧
    getVal [(("marketCap"), PyVal.str ("hello"))] ("marketCap") = PyVal.str ("hello") ∧
    (((("Market Cap"), ("N/A")), ("marketCap")) : (String × String) × String).1.2 = ("N/A") :=
  ⟨by decide, rfl,
    metrics_nonnumeric [(("marketCap"), PyVal.str ("hello"))]
      ((("Market Cap"), ("N/A")), ("marketCap")) (by decide) ("hello") rfl⟩

/-- C6: the metrics deriver is total: on every MetadataRecord it produces the
full 13-row table, and every row is either the marker N/A or the formatted
value of some number; missing and malformed entries degrade to N/A and never
fail. -/
theorem metrics_total (info : MetadataRecord) :
    (get_financial_metrics info).length = 13 ∧
    ∀ p ∈ get_financial_metrics info,
      p.2 = ("N/A") ∨ ∃ q : ℚ, p.2 = format_number (PyVal.num q) := by
  refine ⟨rfl, ?_⟩
  have key : ∀ v : PyVal, ((match v with
      | PyVal.num q => format_number (PyVal.num q)
      | _ => ("N/A")) = ("N/A")) ∨ ∃ q : ℚ, (match v with
      | PyVal.num q => format_number (PyVal.num q)
      | _ => ("N/A")) = format_number (PyVal.num q) := by
    intro v
    rcases v with _ | q | s
    · exact Or.inl rfl
    · exact Or.inr ⟨q, rfl⟩
    · exact Or.inl rfl
  intro p hp
  simp only [get_financial_metrics, List.map, List.mem_cons, List.not_mem_nil, or_false] at hp
  rcases hp with rfl | rfl | rfl | rfl | rfl | rfl | rfl | rfl | rfl | rfl | rfl | rfl | rfl
  all_goals exact key _

/-- Witness for C6 at the empty record and the Market Cap row. -/
theorem metrics_total_witness :
    ((("Market Cap"), ("N/A")) ∈ get_financial_metrics ([] : MetadataRecord)) ∧
    (((("Market Cap"), ("N/A")) : String × String).2 = ("N/A") ∨
      ∃ q : ℚ, ((("Market Cap"), ("N/A")) : String × String).2 = format_number (PyVal.num q)) :=
  ⟨by decide, (metrics_total []).2 ((("Market Cap"), ("N/A"))) (by decide)⟩

theorem dy_row_num (info : MetadataRecord) (q : ℚ)
    (h : getVal info ("dividendYield") = PyVal.num q) (hq : q ≠ 0) :
    (get_financial_metrics info)[3]? =
      some ((("Dividend Yield"), format_number (PyVal.num (q * 100)))) := by
  have hD := getValD_of_getVal info ("dividendYield") (PyVal.num q) (PyVal.num 0) h (by simp)
  simp [get_financial_metrics, h, hD, truthy, hq, pyMulHundred]

theorem dy_row_falsy (info : MetadataRecord) (v : PyVal)
    (h : getVal info ("dividendYield") = v) (hv : truthy v = false) :
    (get_financial_metrics info)[3]? = some ((("Dividend Yield"), ("N/A"))) := by
  simp [get_financial_metrics, h, hv]

/-- C4: the Dividend Yield metric multiplies the dividendYield value by
exactly 100 before formatting, so 1/40 (that is 0.025) is displayed as 2.50
in the value $2.50 rather than 0.03, and an absent key yields the marker
N/A, never zero. -/
theorem dividend_yield_times_hundred :
    (∀ info : MetadataRecord, ∀ q : ℚ,
      getVal info ("dividendYield") = PyVal.num q → q ≠ 0 →
      (get_financial_metrics info)[3]? =
        some ((("Dividend Yield"), format_number (PyVal.num (q * 100))))) ∧
    (∀ info : MetadataRecord, getVal info ("dividendYield") = PyVal.none →
      (get_financial_metrics info)[3]? = some ((("Dividend Yield"), ("N/A")))) ∧
    (∀ info : MetadataRecord, getVal info ("dividendYield") = PyVal.num (1 / 40) →
      (get_financial_metrics info)[3]? = some ((("Dividend Yield"), ("$2.50")))) := by
  refine ⟨dy_row_num, fun info h => dy_row_falsy info PyVal.none h rfl, ?_⟩
  intro info h
  rw [dy_row_num info (1 / 40) h (by norm_num)]
  rw [show ((1 : ℚ) / 40) * 100 = 5 / 2 by norm_num]
  rw [format_num_small (5 / 2) (by
    rw [abs_of_pos (show (0 : ℚ) < 5 / 2 by norm_num)]; norm_num)]
  rw [formatTwo_eq _ 250 (by
    rw [abs_of_pos (show (0 : ℚ) < 5 / 2 by norm_num),
      show (5 : ℚ) / 2 * 100 = ((250 : ℕ) : ℚ) by norm_num]
    unfold roundHalfEven; norm_num)]
  rw [if_neg (by norm_num : ¬ (((5 : ℚ) / 2) < 0))]
  decide

/-- Witness for C4 at a record holding dividendYield = 1/40. -/
theorem dividend_yield_times_hundred_witness :
    getVal [(("dividendYield"), PyVal.num (1 / 40))] ("dividendYield") = PyVal.num (1 / 40) ∧
    (get_financial_metrics [(("dividendYield"), PyVal.num (1 / 40))])[3]? =
      some ((("Dividend Yield"), ("$2.50"))) :=
  ⟨rfl, dividend_yield_times_hundred.2.2 [(("dividendYield"), PyVal.num (1 / 40))] rfl⟩

/-- C10: when dividendYield is present but bound to the number 0 (or to any
falsy value), the Dividend Yield row is the marker N/A rather than a
formatted zero, because the transform is guarded by truthiness of the value
rather than by key presence. -/
theorem dividend_yield_falsy_guard :
    (∀ info : MetadataRecord, getVal info ("dividendYield") = PyVal.num 0 →
      (get_financial_metrics info)[3]? = some ((("Dividend Yield"), ("N/A")))) ∧
    (∀ info : MetadataRecord, ∀ v : PyVal,
      getVal info ("dividendYield") = v → truthy v = false →
      (get_financial_metrics info)[3]? = some ((("Dividend Yield"), ("N/A")))) :=
  ⟨fun info h => dy_row_falsy info (PyVal.num 0) h (by simp [truthy]), dy_row_falsy⟩

/-- Witness for C10 at a record holding dividendYield = 0. -/
theorem dividend_yield_falsy_guard_witness :
    getVal [(("dividendYield"), PyVal.num 0)] ("dividendYield") = PyVal.num 0 ∧
    (get_financial_metrics [(("dividendYield"), PyVal.num 0)])[3]? =
      some ((("Dividend Yield"), ("N/A"))) :=
  ⟨rfl, dividend_yield_falsy_guard.1 [(("dividendYield"), PyVal.num 0)] rfl⟩

/-- C8: the metrics deriver is a pure, deterministic function of its input:
equal records produce equal tables. The embedding itself is a total function
without any state, mirroring the source, which only reads its argument. -/
theorem metrics_deterministic (a b : MetadataRecord) (h : a = b) :
    get_financial_metrics a = get_financial_metrics b := by rw [h]

/-- Witness for C8 at the empty record. -/
theorem metrics_deterministic_witness :
    (([] : MetadataRecord) = ([] : MetadataRecord)) ∧
    get_financial_metrics ([] : MetadataRecord) = get_financial_metrics ([] : MetadataRecord) :=
  ⟨rfl, metrics_deterministic [] [] rfl⟩

/-- C7 amended: every fetch outcome is presented as exactly one of three
states: a fetch failure with a NON-EMPTY error string shows the error box
containing the provider error text; a fetch failure with an empty error
string, an empty historical series, or an empty metadata record shows the
warning box advising the user to check the symbol; otherwise the page with
the series and metrics table is rendered. (As literally stated the claim
fails on an empty error string, which Python treats as falsy; see the
counterexample.) -/
theorem fetch_render_trichotomy (provider : Provider) (t p : String) :
    (∀ e : String, provider t p = Except.error e → e ≠ ("") →
      appDisplay provider t p =
        Display.errorBox (("Error retrieving data for ") ++ t ++ (": ") ++ e)) ∧
    (provider t p = Except.error ("") →
      appDisplay provider t p = Display.warningBox (("No data found for symbol: ") ++ t ++
        (". Please check if the symbol is correct."))) ∧
    (∀ h : List PriceRow, ∀ i : MetadataRecord, provider t p = Except.ok (h, i) →
      (h = [] ∨ i = []) →
      appDisplay provider t p = Display.warningBox (("No data found for symbol: ") ++ t ++
        (". Please check if the symbol is correct."))) ∧
    (∀ h : List PriceRow, ∀ i : MetadataRecord, provider t p = Except.ok (h, i) →
      h ≠ [] → i ≠ [] →
      appDisplay provider t p = Display.rendered h (get_financial_metrics i)) := by
  refine ⟨?_, ?_, ?_, ?_⟩
  · intro e hp he
    simp [appDisplay, get_stock_data, hp, renderMain, errTruthy, he]
  · intro hp
    simp [appDisplay, get_stock_data, hp, renderMain, errTruthy, histTruthy]
  · intro h i hp hor
    rcases hor with rfl | rfl
    · simp [appDisplay, get_stock_data, hp, renderMain, errTruthy, histTruthy]
    · simp [appDisplay, get_stock_data, hp, renderMain, errTruthy, histTruthy, infoTruthy]
  · intro h i hp hh hi
    simp [appDisplay, get_stock_data, hp, renderMain, errTruthy, histTruthy, infoTruthy, hh, hi]

/-- C7 counterexample to the literal claim: the fetcher returns the error
string "", yet the page shows the warning box, not an error message
containing the provider error text. -/
theorem fetch_render_counterexample :
    appDisplay (fun _ _ => Except.error ("")) ("AAPL") ("1y") =
      Display.warningBox ("No data found for symbol: AAPL. Please check if the symbol is correct.") := by
  rfl

/-- Witness for C7 with a provider failing with the message boom. -/
theorem fetch_render_witness :
    ((fun _ _ => Except.error ("boom") : Provider) ("AAPL") ("1y") = Except.error ("boom")) ∧
    (("boom" : String) ≠ ("")) ∧
    appDisplay (fun _ _ => Except.error ("boom")) ("AAPL") ("1y") =
      Display.errorBox (("Error retrieving data for ") ++ ("AAPL") ++ (": ") ++ ("boom")) :=
  ⟨rfl, by decide, (fetch_render_trichotomy (fun _ _ => Except.error ("boom")) ("AAPL") ("1y")).1
    ("boom") rfl (by decide)⟩

theorem char_toNat_ofNat_valid (n : ℕ) (h : n.isValidChar) : (Char.ofNat n).toNat = n := by
  rw [Char.ofNat, dif_pos h]
  simp [Char.ofNatAux, Char.toNat, UInt32.toNat, BitVec.toNat_ofNatLt]

theorem toUpper_not_lower_range (c : Char) :
    ¬ ((Char.toUpper c).toNat ≥ 97 ∧ (Char.toUpper c).toNat ≤ 122) := by
  simp only [Char.toUpper]
  by_cases h : c.toNat ≥ 97 ∧ c.toNat ≤ 122
  · rw [if_pos h]
    have hv : (c.toNat - 32).isValidChar := Or.inl (by omega)
    rw [char_toNat_ofNat_valid (c.toNat - 32) hv]
    omega
  · rw [if_neg h]
    omega

theorem toUpper_isLower (c : Char) : (Char.toUpper c).isLower = false := by
  have h := toUpper_not_lower_range c
  simp only [Char.isLower, ge_iff_le, Bool.and_eq_false_imp, decide_eq_true_eq,
    decide_eq_false_iff_not, not_le]
  intro h97
  rw [UInt32.le_def, BitVec.le_def] at h97 ⊢
  have e97 : (((97 : UInt32)).toBitVec).toNat = 97 := rfl
  have e122 : (((122 : UInt32)).toBitVec).toNat = 122 := rfl
  simp only [Char.toNat, UInt32.toNat] at h
  omega

theorem toUpper_idem (c : Char) : Char.toUpper (Char.toUpper c) = Char.toUpper c := by
  have h := toUpper_not_lower_range c
  conv_lhs => rw [Char.toUpper]
  rw [if_neg h]

/-- C9: the user-entered ticker is case-normalized to uppercase before any
fetch: the normalized ticker contains no lowercase letter, normalizing is
idempotent, and whenever a fetch happens the string handed to the fetch
pipeline is the uppercased input. -/
theorem ticker_uppercase :
    (∀ s : String, ∀ c ∈ (ticker_symbol s).data, c.isLower = false) ∧
    (∀ s : String, ticker_symbol (ticker_symbol s) = ticker_symbol s) ∧
    (∀ provider : Provider, ∀ s period : String, ticker_symbol s ≠ ("") →
      appRun provider s period = some (appDisplay provider (pyUpper s) period)) ∧
    ticker_symbol ("aapl") = ("AAPL") ∧ ticker_symbol ("AaPl") = ("AAPL") := by
  refine ⟨?_, ?_, ?_, by decide, by decide⟩
  · intro s c hc
    simp only [ticker_symbol, pyUpper, List.mem_map] at hc
    obtain ⟨d, hd, rfl⟩ := hc
    exact toUpper_isLower d
  · intro s
    simp only [ticker_symbol, pyUpper, List.map_map]
    congr 1
    exact List.map_congr_left (fun c hc => toUpper_idem c)
  · intro provider s period h
    rw [appRun, if_pos h]
    rfl

/-- Witness for C9: a fetch triggered by the lowercase input msft receives
the uppercased ticker. -/
theorem ticker_uppercase_witness :
    (ticker_symbol ("msft") ≠ ("")) ∧
    appRun (fun _ _ => Except.error ("e")) ("msft") ("1y") =
      some (appDisplay (fun _ _ => Except.error ("e")) (pyUpper ("msft")) ("1y")) :=
  ⟨by decide, ticker_uppercase.2.2.1 (fun _ _ => Except.error ("e")) ("msft") ("1y") (by decide)⟩

end StockApp
